import Mathlib

/-!
Verification development for the crashdetect plugin sources.

The repository provides two source files: the header `src/amxcallstack.h`
(declarations of `AMXStackFrame` and `AMXCallStack`, with the constant
`kMaxString` and the inline accessors) and the plugin main translation unit
(hooks `FopenHook` and `CreateFileAHook`, the AMX entry wrappers
`ProcessDebugHook`, `ProcessCallback`, `ProcessExec`, `ProcessExecError`,
and the plugin lifecycle functions `Load`, `AmxLoad`, `AmxUnload`).

The implementation of the call-stack walk (the `AMXCallStack` and
`AMXStackFrame` constructors) is not part of the sources, so the walk is
modelled from the specification text (section 4.1 of the design document),
while everything from the plugin main file is embedded directly from the
code.
-/

/- ### Call-stack walker model -/

/-- A captured string snapshot attached to a stack frame: the text kept in
the frame together with a flag recording whether it was clipped. -/
structure CapturedString where
  text : List Char
  truncated : Bool
deriving Repr, DecidableEq

/-- From `src/amxcallstack.h`: the maximum number of characters of a string
argument kept in a frame (`static const int kMaxString = 30`). -/
def kMaxString : Nat := 30

/-- Modelled from the spec: the maximum-depth cutoff of the frame walk is
required by the design document (sections 3 and 4.1) but its numeric value
is in the missing `amxcallstack.cpp`; it is fixed here as a concrete
constant. -/
def kMaxStackDepth : Nat := 100

/-- One stack frame, mirroring the private fields of `AMXStackFrame` in
`src/amxcallstack.h`: frame address, return address, resolved function
address (unresolved is `none`) and the optional captured string. -/
structure AMXStackFrame where
  frameAddr : Nat
  retAddr : Nat
  funAddr : Option Nat
  string_ : Option CapturedString
deriving Repr, DecidableEq, Inhabited

/-- Modelled from the spec: the state of one AMX instance as seen by the
walker, since the AMX structure itself lives in the external `amx/amx.h`
header. `mem` gives the cell stored at a byte address, `dataLo` and
`dataHi` are the declared stack/data bounds used by the validity check,
and `strAt` is the oracle decoding the optional string argument visible at
a frame (the exact argument-slot decoding is in the missing
`amxcallstack.cpp`). -/
structure AmxInstance where
  mem : Nat → Nat
  dataLo : Nat
  dataHi : Nat
  strAt : Nat → Option (List Char)

/-- Modelled from the spec: debug info is a sorted table of address to
function-symbol entries (the parser lives in the external
`amxdebuginfo.h`). -/
structure AMXDebugInfo where
  funcTable : List (Nat × String)

/-- Modelled from the spec: the validity check of a frame address against
the declared stack/data bounds of the instance; the frame record (previous
frame pointer and return address) occupies two cells at byte offsets 0 and
4, so eight bytes starting at the frame address must be inside the
region. -/
def InBoundsB (amx : AmxInstance) (a : Nat) : Bool :=
  decide (amx.dataLo ≤ a) && decide (a + 8 ≤ amx.dataHi)

/-- Modelled from the spec: resolution of a return address through the
function table, computing the greatest entry address at or below the given
address (`none` when no entry is at or below it). The missing code does a
binary search over the sorted table; this linear scan is extensionally the
same lookup. -/
def lookupFunction : List (Nat × String) → Nat → Option Nat
  | [], _ => none
  | e :: rest, addr =>
    match lookupFunction rest addr with
    | none => if e.1 ≤ addr then some e.1 else none
    | some m => if e.1 ≤ addr then some (max e.1 m) else some m

/-- Modelled from the spec: the bounded snapshot of a string argument,
clipped to `kMaxString` characters and flagged when clipped. -/
def captureString (s : List Char) : CapturedString :=
  if kMaxString < s.length then
    { text := s.take kMaxString, truncated := true }
  else
    { text := s, truncated := false }

/-- Modelled from the spec: construction of one stack frame at a given
frame address (the body of the missing `AMXStackFrame` constructor): the
return address is the cell at byte offset 4 of the frame record, the
function address is resolved through the debug info when present, and a
string argument visible at the frame is captured bounded. -/
def mkFrame (amx : AmxInstance) (debugInfo : Option AMXDebugInfo) (fa : Nat) :
    AMXStackFrame :=
  let ret := amx.mem (fa + 4)
  { frameAddr := fa
    retAddr := ret
    funAddr :=
      match debugInfo with
      | none => none
      | some di => lookupFunction di.funcTable ret
    string_ := (amx.strAt fa).map captureString }

/-- Modelled from the spec: the frame-chain walk of the missing
`AMXCallStack` constructor, following section 4.1: read the frame record at
the current frame address, emit a frame, advance to the saved previous
frame pointer (the cell at byte offset 0), and stop at the root value zero,
at the maximum-depth cutoff, or when the address fails the bounds check. -/
def walkFrames (amx : AmxInstance) (debugInfo : Option AMXDebugInfo) :
    Nat → Nat → List AMXStackFrame
  | 0, _ => []
  | fuel + 1, frame =>
    if frame = 0 then []
    else if InBoundsB amx frame then
      mkFrame amx debugInfo frame :: walkFrames amx debugInfo fuel (amx.mem frame)
    else []

/-- The reconstructed call stack, mirroring `AMXCallStack` from
`src/amxcallstack.h` (a sequence of frames, innermost first). -/
structure AMXCallStack where
  frames : List AMXStackFrame

/-- Modelled from the spec: the missing `AMXCallStack` constructor, walking
the chain from the starting frame pointer up to the depth cutoff. -/
def mkCallStack (amx : AmxInstance) (debugInfo : Option AMXDebugInfo)
    (frame : Nat) : AMXCallStack :=
  { frames := walkFrames amx debugInfo kMaxStackDepth frame }

/-- A synthetic frame chain: `isChain amx f addrs` holds when following the
saved previous-frame links from starting pointer `f` visits exactly the
addresses in `addrs`, all nonzero and inside the declared bounds, and the
link of the last one is the root value zero. -/
def isChain (amx : AmxInstance) : Nat → List Nat → Bool
  | f, [] => decide (f = 0)
  | f, a :: rest =>
    decide (f = a) && decide (a ≠ 0) && InBoundsB amx a &&
      isChain amx (amx.mem a) rest

/- ### Snapshot accessors -/

/-- From `src/amxcallstack.h`: `GetFrames` is a const member returning the
frame deque by value; it is embedded as a state-passing function yielding
the returned copy together with the post-call snapshot state. -/
def AMXCallStack.GetFrames (cs : AMXCallStack) : List AMXStackFrame × AMXCallStack :=
  (cs.frames, cs)

/-- From `src/amxcallstack.h`: const accessor `GetFramAddress` (the name
keeps the spelling of the header), as a state-passing function. -/
def AMXStackFrame.GetFramAddress (fr : AMXStackFrame) : Nat × AMXStackFrame :=
  (fr.frameAddr, fr)

/-- From `src/amxcallstack.h`: const accessor `GetReturnAddress`. -/
def AMXStackFrame.GetReturnAddress (fr : AMXStackFrame) : Nat × AMXStackFrame :=
  (fr.retAddr, fr)

/-- From `src/amxcallstack.h`: const accessor `GetFunctionAddress`. -/
def AMXStackFrame.GetFunctionAddress (fr : AMXStackFrame) :
    Option Nat × AMXStackFrame :=
  (fr.funAddr, fr)

/-- From `src/amxcallstack.h`: const accessor `GetString` (returns the
stored string by value). -/
def AMXStackFrame.GetString (fr : AMXStackFrame) :
    Option CapturedString × AMXStackFrame :=
  (fr.string_, fr)

/-- One accessor invocation on a call-stack snapshot: either `GetFrames`
on the stack itself, or one of the frame accessors applied to the frame at
a given position of the copy returned by `GetFrames`. -/
inductive AccessorCall where
  | callGetFrames
  | callGetFramAddress (i : Nat)
  | callGetReturnAddress (i : Nat)
  | callGetFunctionAddress (i : Nat)
  | callGetString (i : Nat)

/-- The snapshot state after one accessor invocation: `GetFrames` yields
its post-call state; a frame accessor runs on the detached copy returned by
`GetFrames`, so only the post-call state of the `GetFrames` call flows back
to the snapshot. -/
def applyAccessor (cs : AMXCallStack) : AccessorCall → AMXCallStack
  | .callGetFrames => (AMXCallStack.GetFrames cs).2
  | .callGetFramAddress i =>
    let copy := (AMXCallStack.GetFrames cs).1
    let _ := (copy.getD i default).GetFramAddress
    (AMXCallStack.GetFrames cs).2
  | .callGetReturnAddress i =>
    let copy := (AMXCallStack.GetFrames cs).1
    let _ := (copy.getD i default).GetReturnAddress
    (AMXCallStack.GetFrames cs).2
  | .callGetFunctionAddress i =>
    let copy := (AMXCallStack.GetFrames cs).1
    let _ := (copy.getD i default).GetFunctionAddress
    (AMXCallStack.GetFrames cs).2
  | .callGetString i =>
    let copy := (AMXCallStack.GetFrames cs).1
    let _ := (copy.getD i default).GetString
    (AMXCallStack.GetFrames cs).2

/-- The snapshot state after a sequence of accessor invocations. -/
def runAccessorCalls (ops : List AccessorCall) (cs : AMXCallStack) : AMXCallStack :=
  ops.foldl applyAccessor cs

/- ### Plugin main translation unit -/

/-- File names, paths and log messages are character lists. -/
abbrev PathStr : Type := List Char

/-- Modelled from the spec: `fileutils::GetFileExtensionPtr` lives in the
external `fileutils` helper; it returns the part of the name after the
last dot, or null when the name has no extension. -/
def getFileExtension : PathStr → Option PathStr
  | [] => none
  | c :: rest =>
    match getFileExtension rest with
    | some e => some e
    | none => if c = '.' then some rest else none

/-- Modelled from the spec: lower-casing of one ASCII character, used by
the case-insensitive comparison of the external `stringutils` helper. -/
def toLowerCh (c : Char) : Char :=
  if 'A' ≤ c ∧ c ≤ 'Z' then Char.ofNat (c.toNat + 32) else c

/-- Modelled from the spec: `stringutils::CompareIgnoreCase` equality,
comparing two names case-insensitively. -/
def eqIgnoreCase (a b : PathStr) : Bool :=
  decide (a.map toLowerCh = b.map toLowerCh)

/-- The tracked extension of the file-open interception. -/
def amxExtension : PathStr := ['a', 'm', 'x']

/-- The per-instance coordinator (`CrashDetectHandler`, whose
implementation is external): only its entry points matter here, kept as
abstract result values and functions. -/
structure CrashDetectHandler where
  procDebugHook : Int
  procCallback : Int → Nat → Nat → Int
  procExec : Nat → Int → Int
  procExecError : Int → Nat → Int → Unit

/-- The mutable file-scope and process state touched by the plugin main
translation unit: the pending `last_amx_path` value, the path-finder
bookkeeping (`amx_path_finder` known files and search paths), the handler
registry of `CrashDetectHandler`, the redirection target of the `amx_Exec`
export (`none` when not redirected, otherwise the name of the module the
jump leads to), and the remaining installation flags and the log. -/
structure PluginState where
  lastAmxPath : PathStr
  knownFiles : List (Nat × PathStr)
  searchPaths : List PathStr
  handlers : List (Nat × CrashDetectHandler)
  execDst : Option PathStr
  fopenHooked : Bool
  vmHooksSet : List Nat
  nativesRegistered : List Nat
  crashHandlerSet : Bool
  interruptHandlerSet : Bool
  log : List PathStr

/-- The plugin state before `Load` runs in a fresh process: nothing
installed, nothing pending. The `amx_Exec` export may already be
redirected by another agent, which is the one varying field. -/
def initialState (priorDst : Option PathStr) : PluginState :=
  { lastAmxPath := []
    knownFiles := []
    searchPaths := []
    handlers := []
    execDst := priorDst
    fopenHooked := false
    vmHooksSet := []
    nativesRegistered := []
    crashHandlerSet := false
    interruptHandlerSet := false
    log := [] }

/-- From the plugin main file: `FopenHook` (and on Windows
`CreateFileAHook`, whose pending-path logic is identical): when the opened
file name has an extension comparing case-insensitively equal to `amx`,
the pending `last_amx_path` value is overwritten with the name; otherwise
the state is untouched. The forwarded call to the original `fopen` is
external and not part of the state. -/
def FopenHook (filename _mode : PathStr) (st : PluginState) : PluginState :=
  match getFileExtension filename with
  | some ext => if eqIgnoreCase ext amxExtension then
      { st with lastAmxPath := filename }
    else st
  | none => st

/-- From the plugin main file: `CrashDetectHandler::GetHandler`, the
registry lookup keyed by instance identity (the registry itself is kept by
the external handler implementation; here it is the `handlers` field). -/
def GetHandler (st : PluginState) (amx : Nat) : Option CrashDetectHandler :=
  (st.handlers.find? (fun p => p.1 = amx)).map Prod.snd

/-- From the plugin main file, `subhook::Hook::ReadDst` on the `amx_Exec`
export: the current redirection target, `none` when the entry point is not
redirected. -/
def ReadDst (st : PluginState) : Option PathStr :=
  st.execDst

/-- The name this plugin installs at the `amx_Exec` export (the
`ProcessExec` wrapper). -/
def crashDetectModule : PathStr := "crashdetect".data

/-- Modelled from the spec: `stringutils::SplitString` is external;
splitting a separator-delimited list into pieces. -/
def splitPathList (sep : Char) : PathStr → List PathStr
  | [] => [[]]
  | c :: rest =>
    let tails := splitPathList sep rest
    if c = sep then [] :: tails
    else
      match tails with
      | [] => [[c]]
      | t :: ts => (c :: t) :: ts

/-- From the plugin main file: `Load`. It reads the redirection state of
the `amx_Exec` export; when the export is already redirected it logs the
conflicting module (when its name is nonempty) and returns false without
installing anything; otherwise it installs the `ProcessExec` hook, the
file-open hook, the two default search paths, the search paths from the
`AMX_PATH` variable when set, the crash and interrupt handlers, logs the
version banner, and returns true. `moduleNameOf` stands for the external
`fileutils::GetFileName` of `os::GetModuleName` applied to the prior
redirection target, and `amxPathVar` for the `AMX_PATH` environment
variable. -/
def Load (moduleNameOf : PathStr → PathStr) (amxPathVar : Option PathStr)
    (pathSep : Char) (st : PluginState) : Bool × PluginState :=
  match ReadDst st with
  | some dst =>
    let m := moduleNameOf dst
    if m.length ≠ 0 then
      (false, { st with
        log := st.log ++ ["  CrashDetect must be loaded before ".data ++ m] })
    else
      (false, st)
  | none =>
    let st1 := { st with execDst := some crashDetectModule }
    let st2 := { st1 with fopenHooked := true }
    let st3 := { st2 with
      searchPaths := st2.searchPaths ++ ["gamemodes".data, "filterscripts".data] }
    let st4 :=
      match amxPathVar with
      | none => st3
      | some v => { st3 with
          searchPaths := st3.searchPaths ++ splitPathList pathSep v }
    let st5 := { st4 with crashHandlerSet := true, interruptHandlerSet := true }
    (true, { st5 with log := st5.log ++ ["  CrashDetect plugin".data] })

/-- From the plugin main file: `AmxLoad`. When the pending
`last_amx_path` value is nonempty it is recorded as the known file of the
new instance (the pending value itself is not written). Then a handler is
created and registered for the instance (the handler object built by the
external `CrashDetectHandler::CreateHandler` is passed in as `h`), the
three VM hooks are pointed at the wrapper entry points, and the diagnostic
natives are registered. -/
def AmxLoad (amx : Nat) (h : CrashDetectHandler) (st : PluginState) :
    PluginState :=
  let st1 :=
    if st.lastAmxPath.length ≠ 0 then
      { st with knownFiles := st.knownFiles ++ [(amx, st.lastAmxPath)] }
    else st
  { st1 with
    handlers := (amx, h) :: st1.handlers
    vmHooksSet := amx :: st1.vmHooksSet
    nativesRegistered := amx :: st1.nativesRegistered }

/-- From the plugin main file: `AmxUnload` calls `Unload` on the handler
of the instance and then `CrashDetectHandler::DestroyHandler`, removing
the registry entry. -/
def AmxUnload (amx : Nat) (st : PluginState) : PluginState :=
  { st with
    handlers := st.handlers.filter (fun p => p.1 ≠ amx)
    vmHooksSet := st.vmHooksSet.filter (fun a => a ≠ amx) }

/- ### Entry-point wrappers -/

/-- From the external `amx/amx.h` header: the browse flag tested by
`ProcessExec`. -/
def AMX_FLAG_BROWSE : Nat := 0x4000

/-- The AMX argument of the wrappers: instance identity plus the flags
word read by `ProcessExec`. -/
structure AMX where
  id : Nat
  flags : Nat

/-- From the plugin main file: `ProcessExec`. When the browse flag is set
the original `amx_Exec` (here the parameter `amx_Exec`, standing for the
trampoline to the unhooked implementation) is called with the same retval
pointer and index; likewise when no handler is registered for the
instance; only otherwise is the call delegated to the handler of the
instance. -/
def ProcessExec (amx_Exec : Nat → Nat → Int → Int) (st : PluginState)
    (amx : AMX) (retval : Nat) (index : Int) : Int :=
  if amx.flags &&& AMX_FLAG_BROWSE ≠ 0 then
    amx_Exec amx.id retval index
  else
    match GetHandler st amx.id with
    | none => amx_Exec amx.id retval index
    | some handler => handler.procExec retval index

/-- From the plugin main file: `ProcessDebugHook` calls
`GetHandler(amx)->ProcessDebugHook()` without a null check; the undefined
null dereference is made explicit as the `Except.error` branch. -/
def ProcessDebugHook (st : PluginState) (amx : Nat) : Except Unit Int :=
  match GetHandler st amx with
  | none => Except.error ()
  | some handler => Except.ok handler.procDebugHook

/-- From the plugin main file: `ProcessCallback` dereferences the
registry lookup unconditionally, then delegates with index, result and
params unchanged. -/
def ProcessCallback (st : PluginState) (amx : Nat) (index : Int)
    (result params : Nat) : Except Unit Int :=
  match GetHandler st amx with
  | none => Except.error ()
  | some handler => Except.ok (handler.procCallback index result params)

/-- From the plugin main file: `ProcessExecError` dereferences the
registry lookup unconditionally, then delegates with index, retval and
error code unchanged. -/
def ProcessExecError (st : PluginState) (amx : Nat) (index : Int)
    (retval : Nat) (error : Int) : Except Unit Unit :=
  match GetHandler st amx with
  | none => Except.error ()
  | some handler => Except.ok (handler.procExecError index retval error)

/- ### Walker lemmas -/

/-- The walk from the root value zero is empty at any fuel. -/
lemma walkFrames_root (amx : AmxInstance) (di : Option AMXDebugInfo) :
    ∀ fuel, walkFrames amx di fuel 0 = [] := by
  intro fuel
  cases fuel with
  | zero => simp [walkFrames]
  | succ n => simp [walkFrames]

/-- The walk emits at most as many frames as it has fuel. -/
lemma walkFrames_length_le (amx : AmxInstance) (di : Option AMXDebugInfo) :
    ∀ fuel f, (walkFrames amx di fuel f).length ≤ fuel := by
  intro fuel
  induction fuel with
  | zero => intro f; simp [walkFrames]
  | succ n ih =>
    intro f
    simp only [walkFrames]
    split
    · simp
    · split
      · have := ih (amx.mem f)
        simp only [List.length_cons]
        omega
      · simp

/-- Along a synthetic chain short enough for the fuel, the walk visits
exactly the chain addresses in order. -/
lemma walkFrames_chain (amx : AmxInstance) (di : Option AMXDebugInfo) :
    ∀ addrs f fuel, isChain amx f addrs = true → addrs.length ≤ fuel →
      (walkFrames amx di fuel f).map AMXStackFrame.frameAddr = addrs := by
  intro addrs
  induction addrs with
  | nil =>
    intro f fuel hc _
    have hf : f = 0 := by simpa [isChain] using hc
    subst hf
    simp [walkFrames_root]
  | cons a rest ih =>
    intro f fuel hc hlen
    simp only [isChain, Bool.and_eq_true, decide_eq_true_eq] at hc
    obtain ⟨⟨⟨hf, ha⟩, hb⟩, hrest⟩ := hc
    cases fuel with
    | zero => simp at hlen
    | succ n =>
      subst hf
      simp only [walkFrames, if_neg ha, hb, if_true, List.map_cons,
        List.cons.injEq]
      exact ⟨rfl, ih (amx.mem f) n hrest (by simpa using hlen)⟩

/-- Every frame the walk emits is built by `mkFrame` at some address. -/
lemma mem_walkFrames (amx : AmxInstance) (di : Option AMXDebugInfo) :
    ∀ fuel f fr, fr ∈ walkFrames amx di fuel f →
      ∃ fa, fr = mkFrame amx di fa := by
  intro fuel
  induction fuel with
  | zero => intro f fr h; simp [walkFrames] at h
  | succ n ih =>
    intro f fr h
    simp only [walkFrames] at h
    by_cases hf : f = 0
    · simp [hf] at h
    · rw [if_neg hf] at h
      by_cases hb : InBoundsB amx f
      · simp only [hb, if_true, List.mem_cons] at h
        cases h with
        | inl h => exact ⟨f, h⟩
        | inr h => exact ih (amx.mem f) fr h
      · simp [hb] at h

/- ### C1 -/

/-- Concrete instance for the chain claims: every frame links four bytes
down, so the chain from 404 has 101 links before reaching the root. -/
def cexAmx : AmxInstance :=
  { mem := fun a => a - 4
    dataLo := 4
    dataHi := 1000
    strAt := fun _ => none }

/-- The 101 chain addresses 404, 400, ..., 4. -/
def cexAddrs : List Nat := (List.range 101).map (fun i => 404 - 4 * i)

/-- Claim C1, as frozen, asserts exactly N frames for a chain of any
length N; this fails at a valid chain of 101 links because the walk is cut
off at the maximum depth of 100 frames. -/
theorem callstack_chain_overflow_cex :
    isChain cexAmx 404 cexAddrs = true ∧
    cexAddrs.length = 101 ∧
    (mkCallStack cexAmx none 404).frames.length = 100 ∧
    (mkCallStack cexAmx none 404).frames.length ≠ cexAddrs.length := by
  exact ⟨by decide, by decide, by decide, by decide⟩

/-- Claim C1 (amended): for every synthetic frame chain of length at most
the maximum walk depth whose last link is the root value zero, the
reconstructed call stack has exactly the chain frames, innermost first;
and a starting frame pointer that is already the root yields an empty
sequence. -/
theorem callstack_synthetic_chain_frames :
    (∀ amx di start addrs, isChain amx start addrs = true →
        addrs.length ≤ kMaxStackDepth →
        (mkCallStack amx di start).frames.map AMXStackFrame.frameAddr = addrs) ∧
    (∀ amx di, (mkCallStack amx di 0).frames = []) := by
  constructor
  · intro amx di start addrs hc hl
    exact walkFrames_chain amx di addrs start kMaxStackDepth hc hl
  · intro amx di
    simp [mkCallStack, walkFrames_root]

/-- Concrete instance with links eight bytes down, giving the two-link
chain 16, 8, 0. -/
def cexAmx2 : AmxInstance :=
  { mem := fun a => a - 8
    dataLo := 8
    dataHi := 1000
    strAt := fun _ => none }

/-- Witness for C1 at the concrete two-link chain and at the root. -/
theorem callstack_synthetic_chain_frames_witness :
    ((mkCallStack cexAmx2 none 16).frames.map AMXStackFrame.frameAddr = [16, 8]) ∧
    (mkCallStack cexAmx2 none 0).frames = [] :=
  ⟨callstack_synthetic_chain_frames.1 cexAmx2 none 16 [16, 8] (by decide) (by decide),
   callstack_synthetic_chain_frames.2 cexAmx2 none⟩

/- ### C2 -/

/-- Claim C2: the walk is a total function (it terminates on every input,
cyclic chains included), and the number of frames it produces never
exceeds the fixed maximum depth, whatever the memory contents. -/
theorem callstack_walk_depth_bound :
    ∀ amx di f, (mkCallStack amx di f).frames.length ≤ kMaxStackDepth := by
  intro amx di f
  exact walkFrames_length_le amx di kMaxStackDepth f

/- ### Lookup lemmas -/

/-- A successful lookup returns a table entry at or below the address. -/
lemma lookupFunction_mem_le :
    ∀ tab addr a, lookupFunction tab addr = some a →
      a ∈ tab.map Prod.fst ∧ a ≤ addr := by
  intro tab
  induction tab with
  | nil => intro addr a h; simp [lookupFunction] at h
  | cons e rest ih =>
    intro addr a h
    simp only [lookupFunction] at h
    cases hrec : lookupFunction rest addr with
    | none =>
      simp only [hrec] at h
      by_cases he : e.1 ≤ addr
      · rw [if_pos he] at h
        injection h with h
        subst h
        exact ⟨by simp, he⟩
      · rw [if_neg he] at h
        simp at h
    | some m =>
      simp only [hrec] at h
      obtain ⟨hmem, hle⟩ := ih addr m hrec
      by_cases he : e.1 ≤ addr
      · rw [if_pos he] at h
        injection h with h
        subst h
        rcases Nat.le_total e.1 m with hcmp | hcmp
        · rw [max_eq_right hcmp]
          exact ⟨by simp [hmem], hle⟩
        · rw [max_eq_left hcmp]
          exact ⟨by simp, he⟩
      · rw [if_neg he] at h
        injection h with h
        subst h
        exact ⟨by simp [hmem], hle⟩

/-- A failed lookup means every table entry lies strictly above the
address. -/
lemma lookupFunction_none :
    ∀ tab addr, lookupFunction tab addr = none →
      ∀ b ∈ tab.map Prod.fst, addr < b := by
  intro tab
  induction tab with
  | nil => intro addr _ b hb; simp at hb
  | cons e rest ih =>
    intro addr h b hb
    simp only [lookupFunction] at h
    simp only [List.map_cons, List.mem_cons] at hb
    cases hrec : lookupFunction rest addr with
    | none =>
      simp only [hrec] at h
      by_cases he : e.1 ≤ addr
      · rw [if_pos he] at h; simp at h
      · rw [if_neg he] at h
        cases hb with
        | inl hb => subst hb; omega
        | inr hb => exact ih addr hrec b hb
    | some m =>
      simp only [hrec] at h
      by_cases he : e.1 ≤ addr
      · rw [if_pos he] at h; simp at h
      · rw [if_neg he] at h; simp at h

/-- A successful lookup dominates every entry at or below the address. -/
lemma lookupFunction_greatest :
    ∀ tab addr a b, lookupFunction tab addr = some a →
      b ∈ tab.map Prod.fst → b ≤ addr → b ≤ a := by
  intro tab
  induction tab with
  | nil => intro addr a b _ hb; simp at hb
  | cons e rest ih =>
    intro addr a b h hb hble
    simp only [lookupFunction] at h
    simp only [List.map_cons, List.mem_cons] at hb
    cases hrec : lookupFunction rest addr with
    | none =>
      simp only [hrec] at h
      by_cases he : e.1 ≤ addr
      · rw [if_pos he] at h
        injection h with h
        subst h
        cases hb with
        | inl hb => omega
        | inr hb =>
          have := lookupFunction_none rest addr hrec b hb
          omega
      · rw [if_neg he] at h; simp at h
    | some m =>
      simp only [hrec] at h
      by_cases he : e.1 ≤ addr
      · rw [if_pos he] at h
        injection h with h
        subst h
        cases hb with
        | inl hb => subst hb; exact le_max_left _ _
        | inr hb => exact le_trans (ih addr m b hrec hb hble) (le_max_right _ _)
      · rw [if_neg he] at h
        injection h with h
        subst h
        cases hb with
        | inl hb => omega
        | inr hb => exact ih addr m b hrec hb hble

/- ### C4 -/

/-- Concrete instance for the resolution witness: the single frame at 100
returns to address 42. -/
def wAmx : AmxInstance :=
  { mem := fun a => if a = 104 then 42 else 0
    dataLo := 50
    dataHi := 200
    strAt := fun _ => none }

/-- Concrete debug info for the resolution witness: entries at 10 and
40. -/
def wDi : AMXDebugInfo :=
  { funcTable := [(10, "f"), (40, "g")] }

/-- Claim C4: for every frame built during a walk with debug info, a
resolved function address is a function-table entry, is at or below the
return address of the frame, and dominates every entry at or below that
return address; an unresolved one means no entry is at or below the
return address; and with no debug info every frame is unresolved.
Resolution is a total function, so it never raises a failure. -/
theorem frame_function_address_resolution :
    (∀ amx di start fr, fr ∈ (mkCallStack amx (some di) start).frames →
        (∀ a, fr.funAddr = some a →
            a ∈ di.funcTable.map Prod.fst ∧ a ≤ fr.retAddr ∧
              ∀ b ∈ di.funcTable.map Prod.fst, b ≤ fr.retAddr → b ≤ a) ∧
          (fr.funAddr = none →
            ∀ b ∈ di.funcTable.map Prod.fst, fr.retAddr < b)) ∧
    (∀ amx start fr, fr ∈ (mkCallStack amx none start).frames →
        fr.funAddr = none) := by
  constructor
  · intro amx di start fr hmem
    obtain ⟨fa, rfl⟩ :=
      mem_walkFrames amx (some di) kMaxStackDepth start fr hmem
    constructor
    · intro a ha
      simp only [mkFrame] at ha ⊢
      refine ⟨(lookupFunction_mem_le _ _ _ ha).1,
        (lookupFunction_mem_le _ _ _ ha).2, ?_⟩
      intro b hb hble
      exact lookupFunction_greatest _ _ _ _ ha hb hble
    · intro ha
      simp only [mkFrame] at ha ⊢
      exact lookupFunction_none _ _ ha
  · intro amx start fr hmem
    obtain ⟨fa, rfl⟩ :=
      mem_walkFrames amx none kMaxStackDepth start fr hmem
    simp [mkFrame]

/-- Witness for C4 at the concrete one-frame walk: the return address 42
resolves to the entry 40. -/
theorem frame_function_address_resolution_witness :
    40 ∈ wDi.funcTable.map Prod.fst ∧
    40 ≤ (mkFrame wAmx (some wDi) 100).retAddr ∧
    ∀ b ∈ wDi.funcTable.map Prod.fst,
      b ≤ (mkFrame wAmx (some wDi) 100).retAddr → b ≤ 40 :=
  (frame_function_address_resolution.1 wAmx wDi 100
    (mkFrame wAmx (some wDi) 100) (by decide)).1 40 (by decide)

/- ### C7 -/

/-- Concrete instance for the truncation witness: the frame at 100 has a
31-character string argument. -/
def sAmx : AmxInstance :=
  { mem := fun _ => 0
    dataLo := 50
    dataHi := 200
    strAt := fun a => if a = 100 then some (List.replicate 31 'x') else none }

/-- Claim C7: a string argument captured at a frame is clipped to exactly
`kMaxString` characters and flagged as truncated when longer than
`kMaxString`, and stored verbatim and unflagged otherwise. -/
theorem frame_string_truncation :
    ∀ amx di start fr, fr ∈ (mkCallStack amx di start).frames →
      ∀ s, amx.strAt fr.frameAddr = some s →
        ∃ c, fr.string_ = some c ∧
          (kMaxString < s.length →
            c.text.length = kMaxString ∧ c.truncated = true) ∧
          (s.length ≤ kMaxString → c.text = s ∧ c.truncated = false) := by
  intro amx di start fr hmem s hs
  obtain ⟨fa, rfl⟩ := mem_walkFrames amx di kMaxStackDepth start fr hmem
  simp only [mkFrame] at hs ⊢
  rw [hs]
  refine ⟨captureString s, rfl, ?_, ?_⟩
  · intro hlong
    simp only [captureString, if_pos hlong]
    refine ⟨?_, trivial⟩
    rw [List.length_take]
    omega
  · intro hshort
    have hno : ¬ kMaxString < s.length := by omega
    simp only [captureString, if_neg hno]
    exact ⟨trivial, trivial⟩

/-- Witness for C7 at the concrete walk whose single frame carries a
31-character string: it is clipped to 30 characters and flagged. -/
theorem frame_string_truncation_witness :
    ∃ c, (mkFrame sAmx none 100).string_ = some c ∧
      (kMaxString < (List.replicate 31 'x').length →
        c.text.length = kMaxString ∧ c.truncated = true) ∧
      ((List.replicate 31 'x').length ≤ kMaxString →
        c.text = List.replicate 31 'x' ∧ c.truncated = false) :=
  frame_string_truncation sAmx none 100 (mkFrame sAmx none 100)
    (by decide) (List.replicate 31 'x') (by decide)

/- ### C8 -/

/-- Claim C8: a produced snapshot never changes: every sequence of
accessor invocations leaves the snapshot state equal to the state at
construction time, and the frame sequence observed through `GetFrames`
afterwards equals the one observed at construction. -/
theorem callstack_snapshot_immutable :
    ∀ cs ops, runAccessorCalls ops cs = cs ∧
      (AMXCallStack.GetFrames (runAccessorCalls ops cs)).1 =
        (AMXCallStack.GetFrames cs).1 := by
  have happ : ∀ cs op, applyAccessor cs op = cs := by
    intro cs op
    cases op <;> rfl
  have hrun : ∀ ops cs, runAccessorCalls ops cs = cs := by
    intro ops
    induction ops with
    | nil => intro cs; rfl
    | cons o os ih =>
      intro cs
      show List.foldl applyAccessor (applyAccessor cs o) os = cs
      rw [happ]
      exact ih cs
  intro cs ops
  exact ⟨hrun ops cs, by rw [hrun ops cs]⟩

/- ### C3 -/

/-- Claim C3: when the execute export is already redirected (`ReadDst`
nonempty), `Load` installs nothing (the prior redirection, the file-open
hook state, the handlers and the rest of the installation state are
untouched) and returns false; when it is not redirected, `Load` installs
its hook and returns true. -/
theorem load_conflict_policy :
    ∀ mno apv sep st,
      (ReadDst st ≠ none →
        (Load mno apv sep st).1 = false ∧
        (Load mno apv sep st).2.execDst = st.execDst ∧
        (Load mno apv sep st).2.fopenHooked = st.fopenHooked ∧
        (Load mno apv sep st).2.crashHandlerSet = st.crashHandlerSet ∧
        (Load mno apv sep st).2.interruptHandlerSet = st.interruptHandlerSet ∧
        (Load mno apv sep st).2.searchPaths = st.searchPaths ∧
        (Load mno apv sep st).2.handlers = st.handlers) ∧
      (ReadDst st = none →
        (Load mno apv sep st).1 = true ∧
        (Load mno apv sep st).2.execDst = some crashDetectModule ∧
        (Load mno apv sep st).2.fopenHooked = true) := by
  intro mno apv sep st
  cases hd : st.execDst with
  | none =>
    constructor
    · intro hne
      exact absurd (show ReadDst st = none by simp [ReadDst, hd]) hne
    · intro _
      simp only [Load, ReadDst, hd]
      cases apv <;> simp
  | some dst =>
    constructor
    · intro _
      simp only [Load, ReadDst, hd]
      split_ifs <;> simp [hd]
    · intro hn
      simp [ReadDst, hd] at hn

/-- A prior occupant of the execute export, for the conflict witness. -/
def otherModule : PathStr := "othermod".data

/-- Witness for C3: with a prior occupant installed, `Load` returns false
and changes nothing; on a clean process it installs and returns true. -/
theorem load_conflict_policy_witness :
    ((Load id none ',' (initialState (some otherModule))).1 = false ∧
     (Load id none ',' (initialState (some otherModule))).2.execDst =
       (initialState (some otherModule)).execDst ∧
     (Load id none ',' (initialState (some otherModule))).2.fopenHooked =
       (initialState (some otherModule)).fopenHooked ∧
     (Load id none ',' (initialState (some otherModule))).2.crashHandlerSet =
       (initialState (some otherModule)).crashHandlerSet ∧
     (Load id none ',' (initialState (some otherModule))).2.interruptHandlerSet =
       (initialState (some otherModule)).interruptHandlerSet ∧
     (Load id none ',' (initialState (some otherModule))).2.searchPaths =
       (initialState (some otherModule)).searchPaths ∧
     (Load id none ',' (initialState (some otherModule))).2.handlers =
       (initialState (some otherModule)).handlers) ∧
    ((Load id none ',' (initialState none)).1 = true ∧
     (Load id none ',' (initialState none)).2.execDst = some crashDetectModule ∧
     (Load id none ',' (initialState none)).2.fopenHooked = true) :=
  ⟨(load_conflict_policy id none ',' (initialState (some otherModule))).1
      (by decide),
   (load_conflict_policy id none ',' (initialState none)).2 (by decide)⟩

/- ### C5 -/

/-- A coordinator object with inert entry points, standing for the value
built by the external `CrashDetectHandler::CreateHandler`. -/
def trivHandler : CrashDetectHandler :=
  { procDebugHook := 0
    procCallback := fun _ _ _ => 0
    procExec := fun _ _ => 0
    procExecError := fun _ _ _ => () }

/-- The tracked file name used by the pending-path scenarios. -/
def aAmxPath : PathStr := "a.amx".data

/-- State after the tracked file-open. -/
def st5a : PluginState := FopenHook aAmxPath "r".data (initialState none)

/-- State after the first instance-creation event. -/
def st5b : PluginState := AmxLoad 1 trivHandler st5a

/-- State after a second instance-creation event with no intervening
tracked file-open. -/
def st5c : PluginState := AmxLoad 2 trivHandler st5b

/-- Claim C5, as frozen, asserts the pending path is consumed at the
instance-creation event; in the code `AmxLoad` never clears
`last_amx_path`, so after the first event the pending value still holds
the path and a second event associates the same path again. -/
theorem amxload_pending_path_cex :
    st5b.lastAmxPath = aAmxPath ∧
    (1, aAmxPath) ∈ st5b.knownFiles ∧
    (2, aAmxPath) ∈ st5c.knownFiles := by
  exact ⟨by decide, by decide, by decide⟩

/-- Claim C5 (amended): the instance-creation event reads the pending
path but does not clear it: the pending value is unchanged by `AmxLoad`,
every instance-creation event with a nonempty pending path associates it
with the new instance, and one with an empty pending path associates
nothing. -/
theorem amxload_pending_path_not_cleared :
    ∀ amx h st,
      (AmxLoad amx h st).lastAmxPath = st.lastAmxPath ∧
      (st.lastAmxPath ≠ [] →
        (amx, st.lastAmxPath) ∈ (AmxLoad amx h st).knownFiles) ∧
      (st.lastAmxPath = [] →
        (AmxLoad amx h st).knownFiles = st.knownFiles) := by
  intro amx h st
  by_cases hp : st.lastAmxPath = []
  · refine ⟨by simp [AmxLoad, hp], ?_, ?_⟩
    · intro hc; exact absurd hp hc
    · intro _; simp [AmxLoad, hp]
  · have hlen : st.lastAmxPath.length ≠ 0 := by
      intro hc
      exact hp (List.length_eq_zero.mp hc)
    refine ⟨by simp [AmxLoad, hlen], ?_, ?_⟩
    · intro _
      simp [AmxLoad, hlen]
    · intro hc; exact absurd hc hp

/-- Witness for C5 (amended) at the concrete scenario states. -/
theorem amxload_pending_path_not_cleared_witness :
    ((1, st5a.lastAmxPath) ∈ (AmxLoad 1 trivHandler st5a).knownFiles) ∧
    ((AmxLoad 1 trivHandler (initialState none)).knownFiles =
      (initialState none).knownFiles) :=
  ⟨(amxload_pending_path_not_cleared 1 trivHandler st5a).2.1 (by decide),
   (amxload_pending_path_not_cleared 1 trivHandler (initialState none)).2.2 rfl⟩

/- ### C6 -/

/-- Claim C6: a file-open event with no extension or a non-tracked
extension leaves the whole plugin state unchanged; one whose extension
compares case-insensitively equal to the tracked extension overwrites the
pending path with the opened name. -/
theorem fopen_hook_extension_filter :
    ∀ filename mode st,
      (getFileExtension filename = none → FopenHook filename mode st = st) ∧
      (∀ e, getFileExtension filename = some e →
        eqIgnoreCase e amxExtension = false →
        FopenHook filename mode st = st) ∧
      (∀ e, getFileExtension filename = some e →
        eqIgnoreCase e amxExtension = true →
        FopenHook filename mode st = { st with lastAmxPath := filename }) := by
  intro filename mode st
  refine ⟨?_, ?_, ?_⟩
  · intro h
    simp [FopenHook, h]
  · intro e he hne
    simp [FopenHook, he, hne]
  · intro e he heq
    simp [FopenHook, he, heq]

/-- Witness for C6 at three concrete file names: no extension, a
non-tracked extension, and the tracked extension in different case. -/
theorem fopen_hook_extension_filter_witness :
    (FopenHook "noext".data "r".data (initialState none) =
      initialState none) ∧
    (FopenHook "script.txt".data "r".data (initialState none) =
      initialState none) ∧
    (FopenHook "SCRIPT.AMX".data "r".data (initialState none) =
      { initialState none with lastAmxPath := "SCRIPT.AMX".data }) :=
  ⟨(fopen_hook_extension_filter "noext".data "r".data (initialState none)).1
      (by decide),
   (fopen_hook_extension_filter "script.txt".data "r".data
      (initialState none)).2.1 "txt".data (by decide) (by decide),
   (fopen_hook_extension_filter "SCRIPT.AMX".data "r".data
      (initialState none)).2.2 "AMX".data (by decide) (by decide)⟩

/- ### C9 -/

/-- Claim C9: `ProcessExec` forwards to the original `amx_Exec` with the
same retval pointer and index, returning its result unchanged, whenever
the browse flag is set or no handler is registered for the instance; only
otherwise does it delegate to the handler of the instance. -/
theorem processexec_passthrough :
    ∀ ex st amx retval index,
      ((amx.flags &&& AMX_FLAG_BROWSE ≠ 0 ∨ GetHandler st amx.id = none) →
        ProcessExec ex st amx retval index = ex amx.id retval index) ∧
      (amx.flags &&& AMX_FLAG_BROWSE = 0 →
        ∀ h, GetHandler st amx.id = some h →
          ProcessExec ex st amx retval index = h.procExec retval index) := by
  intro ex st amx retval index
  constructor
  · intro hor
    cases hor with
    | inl hb => simp [ProcessExec, hb]
    | inr hn =>
      by_cases hb : amx.flags &&& AMX_FLAG_BROWSE ≠ 0
      · simp [ProcessExec, hb]
      · simp [ProcessExec, hb, hn]
  · intro hz h hh
    have hb : ¬ amx.flags &&& AMX_FLAG_BROWSE ≠ 0 := by simp [hz]
    simp [ProcessExec, hb, hh]

/-- State with a handler registered for instance 2, for the wrapper
witnesses. -/
def stH : PluginState := AmxLoad 2 trivHandler (initialState none)

/-- Witness for C9: with the browse flag set the original is called and
its result comes back unchanged; with a registered handler and no browse
flag the handler is called. -/
theorem processexec_passthrough_witness :
    (ProcessExec (fun _ _ _ => 7) (initialState none) (AMX.mk 1 0x4000) 0 0 =
      (7 : Int)) ∧
    (ProcessExec (fun _ _ _ => 7) stH (AMX.mk 2 0) 0 0 =
      trivHandler.procExec 0 0) :=
  ⟨(processexec_passthrough (fun _ _ _ => 7) (initialState none)
      (AMX.mk 1 0x4000) 0 0).1 (Or.inl (by decide)),
   (processexec_passthrough (fun _ _ _ => 7) stH (AMX.mk 2 0) 0 0).2
      (by decide) trivHandler rfl⟩

/- ### C10 -/

/-- Claim C10: the three entry points that dereference the registry
lookup unconditionally are safe exactly under the precondition that a
handler is registered for the instance: with a registered handler the
null-dereference branch is unreachable and each entry point delegates to
the handler; without one each entry point reaches the null
dereference. -/
theorem entrypoints_handler_precondition :
    ∀ st amx index result params retval err,
      (∀ h, GetHandler st amx = some h →
        ProcessDebugHook st amx = Except.ok h.procDebugHook ∧
        ProcessCallback st amx index result params =
          Except.ok (h.procCallback index result params) ∧
        ProcessExecError st amx index retval err =
          Except.ok (h.procExecError index retval err)) ∧
      (GetHandler st amx = none →
        ProcessDebugHook st amx = Except.error () ∧
        ProcessCallback st amx index result params = Except.error () ∧
        ProcessExecError st amx index retval err = Except.error ()) := by
  intro st amx index result params retval err
  constructor
  · intro h hh
    exact ⟨by simp [ProcessDebugHook, hh], by simp [ProcessCallback, hh],
      by simp [ProcessExecError, hh]⟩
  · intro hn
    exact ⟨by simp [ProcessDebugHook, hn], by simp [ProcessCallback, hn],
      by simp [ProcessExecError, hn]⟩

/-- Witness for C10: instance 2 is registered in `stH`, so all three
entry points succeed there; nothing is registered in the fresh state, so
all three reach the null dereference. -/
theorem entrypoints_handler_precondition_witness :
    (ProcessDebugHook stH 2 = Except.ok trivHandler.procDebugHook ∧
     ProcessCallback stH 2 0 0 0 =
       Except.ok (trivHandler.procCallback 0 0 0) ∧
     ProcessExecError stH 2 0 0 0 =
       Except.ok (trivHandler.procExecError 0 0 0)) ∧
    (ProcessDebugHook (initialState none) 2 = Except.error () ∧
     ProcessCallback (initialState none) 2 0 0 0 = Except.error () ∧
     ProcessExecError (initialState none) 2 0 0 0 = Except.error ()) :=
  ⟨(entrypoints_handler_precondition stH 2 0 0 0 0 0).1 trivHandler rfl,
   (entrypoints_handler_precondition (initialState none) 2 0 0 0 0 0).2 rfl⟩
